import Mathlib

/-!
Verification of the PINN demo notebook (`pinn-demo.ipynb`).

The notebook trains a fully connected network `u(x, t)` to satisfy the PDE
`u_x = 2 u_t + u` with boundary condition `u(x, 0) = 6 exp(-3 x)` on the
rectangle `x ∈ [0, 2]`, `t ∈ [0, 1]`.

Modelling choices, matching the source cell by cell:

* Tensors of shape `(n, 1)` become functions `Fin n → ℝ`; real-valued
  floating-point arithmetic is embedded into `ℝ`.
* The automatic-differentiation engine is an external collaborator whose
  contract is to return exact partial derivatives; `torch.autograd.grad(u.sum(), x)`
  is embedded as the mathematical partial derivative of the batch sum of
  outputs with respect to one input slot (`gradBatchFst` / `gradBatchSnd`).
* The global `torch` random source is made explicit: each sampling routine
  receives the `[0, 1)`-uniform draws it consumes as arguments, and the
  parameter initializer receives a deterministic draw stream `ℕ → ℝ`.
-/

namespace PINNDemo

noncomputable section

open Real Finset MeasureTheory

/-- Partial derivative, with respect to the `i`-th first coordinate, of the
batch sum `∑ j, u (xs j) (ts j)`: the embedding of
`torch.autograd.grad(u.sum(), x)[0]` at batch index `i` in `pde_error`. -/
def gradBatchFst {n : ℕ} (u : ℝ → ℝ → ℝ) (xs ts : Fin n → ℝ) (i : Fin n) : ℝ :=
  deriv (fun v => ∑ j, u (Function.update xs i v j) (ts j)) (xs i)

/-- Partial derivative, with respect to the `i`-th second coordinate, of the
batch sum `∑ j, u (xs j) (ts j)`: the embedding of
`torch.autograd.grad(u.sum(), t)[0]` at batch index `i` in `pde_error`. -/
def gradBatchSnd {n : ℕ} (u : ℝ → ℝ → ℝ) (xs ts : Fin n → ℝ) (i : Fin n) : ℝ :=
  deriv (fun v => ∑ j, u (xs j) (Function.update ts i v j)) (ts i)

/-- Embedding of `pde_error(net, x, t)` from the notebook: for a batch
`(xs, ts)` it returns, per point, `u_x - 2 * u_t - u` where `u_x` and `u_t`
are obtained by differentiating the sum of the batch outputs with respect to
the input tensors, exactly as `torch.autograd.grad(u.sum(), x)` does. -/
def pde_error {n : ℕ} (u : ℝ → ℝ → ℝ) (xs ts : Fin n → ℝ) : Fin n → ℝ :=
  fun i => gradBatchFst u xs ts i - 2 * gradBatchSnd u xs ts i - u (xs i) (ts i)

/-- The analytical solution `u(x,t) = 6 exp(-3x - 2t)` from the notebook,
used as a reference oracle in place of the learned network. -/
def u_ref (x t : ℝ) : ℝ := 6 * Real.exp (-3 * x - 2 * t)

/-- Embedding of `x_bc = torch.rand(size=(n,1)) * 2` inside `boundary_error`:
one boundary abscissa from one uniform `[0, 1)` draw `r`. -/
def boundary_x (r : ℝ) : ℝ := r * 2

/-- One boundary sample as built inside `boundary_error`: abscissa
`x_bc = r * 2`, ordinate `t_bc = 0`, and supervised target
`u_bc = 6 * exp(-3 * x_bc)`. -/
def boundary_sample (r : ℝ) : ℝ × ℝ × ℝ :=
  (boundary_x r, 0, 6 * Real.exp (-3 * boundary_x r))

/-- Embedding of `boundary_error(net, n)` from the notebook: per boundary
point, `net(x_bc, t_bc) - u_bc`, with the boundary batch built from the
uniform draws `rs`. -/
def boundary_error {n : ℕ} (u : ℝ → ℝ → ℝ) (rs : Fin n → ℝ) : Fin n → ℝ :=
  fun i =>
    u (boundary_sample (rs i)).1 (boundary_sample (rs i)).2.1 - (boundary_sample (rs i)).2.2

/-- The spec's error taxonomy for construction-time failures. -/
inductive ConfigurationError
  | invalidBounds

/-- Embedding of the `RandomBoundedDataset` object: its stored attributes
`n`, `boundx = (x_lo, x_hi)` and `boundt = (t_lo, t_hi)`. -/
structure RandomBoundedDataset where
  n : ℕ
  boundx : ℝ × ℝ
  boundt : ℝ × ℝ

/-- Embedding of `RandomBoundedDataset.__init__(n, boundx, boundt)`: the
Python body only assigns the three attributes; it contains no validation and
no raising statement, so the embedded constructor always returns normally
(`Except.ok`), never a `ConfigurationError`. -/
def RandomBoundedDataset.init (n : ℕ) (boundx boundt : ℝ × ℝ) :
    Except ConfigurationError RandomBoundedDataset :=
  Except.ok ⟨n, boundx, boundt⟩

/-- Embedding of `RandomBoundedDataset.__getitem__(index)`: the two uniform
`[0, 1)` draws `d = torch.rand(size=(1,2))` are passed explicitly as
`r1, r2`; the method returns `(x, t, y)` with each coordinate rescaled
affinely into its bound interval and `y = 0`, never reading `index`. -/
def RandomBoundedDataset.getitem (ds : RandomBoundedDataset) (index : ℕ)
    (r1 r2 : ℝ) : ℝ × ℝ × ℝ :=
  (r1 * (ds.boundx.2 - ds.boundx.1) + ds.boundx.1,
    r2 * (ds.boundt.2 - ds.boundt.1) + ds.boundt.1,
    0)

/-- Embedding of `nn.MSELoss()`: the mean over the batch of squared
differences between prediction and target. -/
def mseLoss {n : ℕ} (pred target : Fin n → ℝ) : ℝ :=
  (∑ i, (pred i - target i) ^ 2) / n

/-- Embedding of `PINN.training_step`: from the interior batch
`(xs, ts, ys)` delivered by the data loader (`ys` are the dataset's zero
targets) and the uniform draws `rs` for a boundary batch of the same size
`n = len(x)`, compute `pde_loss = MSE(pde_error, y)`,
`boundary_loss = MSE(boundary_error, y)`, and the returned total
`loss = pde_loss + boundary_loss`; the triple of logged scalars is
`(pde_loss, boundary_loss, loss)`. -/
def training_step {n : ℕ} (u : ℝ → ℝ → ℝ) (xs ts ys rs : Fin n → ℝ) : ℝ × ℝ × ℝ :=
  (mseLoss (pde_error u xs ts) ys,
    mseLoss (boundary_error u rs) ys,
    mseLoss (pde_error u xs ts) ys + mseLoss (boundary_error u rs) ys)

/-- Embedding of `nn.Linear(inDim, outDim)`: a weight matrix and a bias
vector. -/
structure Linear (inDim outDim : ℕ) where
  weight : Fin outDim → Fin inDim → ℝ
  bias : Fin outDim → ℝ

/-- The affine map computed by an `nn.Linear` layer. -/
def Linear.apply {i o : ℕ} (l : Linear i o) (v : Fin i → ℝ) : Fin o → ℝ :=
  fun r => (∑ c, l.weight r c * v c) + l.bias r

/-- The `nn.Tanh()` activation, applied componentwise. -/
def tanhVec {k : ℕ} (v : Fin k → ℝ) : Fin k → ℝ := fun i => Real.tanh (v i)

/-- Embedding of the `FCNet` module: input layer, list of hidden layers,
output layer. -/
structure FCNet (input_dimension output_dimension neurons : ℕ) where
  input_layer : Linear input_dimension neurons
  hidden_layers : List (Linear neurons neurons)
  output_layer : Linear neurons output_dimension

/-- Embedding of `FCNet.forward`: `x = activation(input_layer(x))`, then the
loop `for l in hidden_layers: x = activation(l(x))`, then
`output_layer(x)` with no activation. -/
def FCNet.forward {i o m : ℕ} (net : FCNet i o m) (x : Fin i → ℝ) : Fin o → ℝ :=
  net.output_layer.apply
    (net.hidden_layers.foldl (fun v l => tanhVec (l.apply v))
      (tanhVec (net.input_layer.apply x)))

/-- Embedding of the `FCNet.__init__` layer construction: one input layer,
`n_hidden_layers - 1` hidden layers (one per element of
`range(n_hidden_layers - 1)`), one output layer, with the per-layer
parameter values supplied by the explicit sources `lin`, `hl`, `lout`. -/
def FCNet.build (i o m n_hidden_layers : ℕ) (lin : Linear i m)
    (hl : ℕ → Linear m m) (lout : Linear m o) : FCNet i o m :=
  ⟨lin, (List.range (n_hidden_layers - 1)).map hl, lout⟩

/-- Embedding of `PINNNet.forward(x, t)`: concatenate the two scalar
coordinates into one 2-vector per sample (`torch.cat((x, t), axis=-1)`) and
apply the wrapped `FCNet`; the scalar output is component `0`. -/
def PINNNet.forward {m : ℕ} (net : FCNet 2 1 m) (x t : ℝ) : ℝ :=
  net.forward ![x, t] 0

/-- Spec-side description of the hidden stage of §4.1: apply each hidden
affine transform followed by the saturating nonlinearity, in order. -/
def specHiddenStage {m : ℕ} : List (Linear m m) → (Fin m → ℝ) → (Fin m → ℝ)
  | [], v => v
  | l :: ls, v => specHiddenStage ls (tanhVec (l.apply v))

/-- Spec-side description of the whole forward pass of §4.1: concatenate the
two coordinates, apply the input affine transform (followed, as every
inter-layer position per §2, by the saturating nonlinearity), then the
hidden affine transforms each followed by the nonlinearity, then the final
affine transform with no nonlinearity on the output layer. -/
def specForward {m : ℕ} (net : FCNet 2 1 m) (x t : ℝ) : ℝ :=
  net.output_layer.apply
    (specHiddenStage net.hidden_layers (tanhVec (net.input_layer.apply ![x, t]))) 0

/-- The gain `nn.init.calculate_gain('tanh') = 5/3` used by `init_xavier`. -/
def tanh_gain : ℝ := 5 / 3

/-- The `xavier_uniform_` half-width `a = gain * sqrt(6 / (fan_in + fan_out))`. -/
def xavier_bound (fan_in fan_out : ℕ) : ℝ :=
  tanh_gain * Real.sqrt (6 / (fan_in + fan_out))

/-- One `U(-a, a)` weight entry obtained from one uniform `[0, 1)` draw. -/
def xavier_entry (a u : ℝ) : ℝ := (2 * u - 1) * a

/-- Embedding of `init_weights` on one `nn.Linear(inD, outD)`: every weight
entry drawn uniformly from `(-a, a)` with the tanh gain, consuming the
deterministic draw stream `rand` from offset `off` in row-major order, and
the bias filled with `0` (`m.bias.data.fill_(0)`). -/
def init_linear (rand : ℕ → ℝ) (off : ℕ) (inD outD : ℕ) : Linear inD outD :=
  ⟨fun r c => xavier_entry (xavier_bound inD outD) (rand (off + r.val * inD + c.val)),
    fun _ => 0⟩

/-- Embedding of `init_xavier` applied to the `PINNNet` configuration
`FCNet(2, 1, n_hidden_layers, neurons)`: `model.apply(init_weights)` visits
the linear layers in module order, consuming the draw stream layer by
layer. -/
def init_xavier (rand : ℕ → ℝ) (n_hidden_layers neurons : ℕ) : FCNet 2 1 neurons :=
  FCNet.build 2 1 neurons n_hidden_layers
    (init_linear rand 0 2 neurons)
    (fun k => init_linear rand (2 * neurons + k * (neurons * neurons)) neurons neurons)
    (init_linear rand (2 * neurons + (n_hidden_layers - 1) * (neurons * neurons)) neurons 1)

/-- The batch-sum function in one input slot splits into the `i`-th term plus
a constant, so its derivative at `xs i` is the `i`-th pointwise derivative.
This is the bridge between autograd-on-the-batch-sum and the per-point
partial derivative. -/
theorem deriv_sum_update {n : ℕ} (f : Fin n → ℝ → ℝ) (xs : Fin n → ℝ) (i : Fin n) :
    deriv (fun v => ∑ j, f j (Function.update xs i v j)) (xs i) = deriv (f i) (xs i) := by
  have hfun : (fun v => ∑ j, f j (Function.update xs i v j))
      = fun v => f i v + ∑ j ∈ Finset.univ.erase i, f j (xs j) := by
    funext v
    rw [← Finset.add_sum_erase Finset.univ (fun j => f j (Function.update xs i v j))
      (Finset.mem_univ i)]
    rw [Function.update_same]
    refine congrArg (fun s => f i v + s) ?_
    refine Finset.sum_congr rfl ?_
    intro j hj
    rw [Function.update_noteq (Finset.ne_of_mem_erase hj)]
  rw [hfun, deriv_add_const]

/-- C1: for every approximator `u` and every batch of interior points, the PDE
residual evaluator returns, at each point, exactly
`d(output)/d(coord1) - 2 * d(output)/d(coord2) - output`, i.e.
`u_x(x,t) - 2 * u_t(x,t) - u(x,t)` with the first-order partial derivatives
taken pointwise — even though the code differentiates the batch sum. -/
theorem pde_error_eq_pointwise_residual {n : ℕ} (u : ℝ → ℝ → ℝ)
    (xs ts : Fin n → ℝ) (i : Fin n) :
    pde_error u xs ts i
      = deriv (fun x => u x (ts i)) (xs i)
        - 2 * deriv (fun t => u (xs i) t) (ts i)
        - u (xs i) (ts i) := by
  unfold pde_error gradBatchFst gradBatchSnd
  rw [deriv_sum_update (fun j v => u v (ts j)) xs i]
  rw [deriv_sum_update (fun j v => u (xs j) v) ts i]

/-- The reference solution has first-slot derivative `-3 * u_ref x t`. -/
theorem u_ref_hasDerivAt_fst (x t : ℝ) :
    HasDerivAt (fun v => u_ref v t) (-3 * u_ref x t) x := by
  have h1 : HasDerivAt (fun v : ℝ => -3 * v - 2 * t) (-3) x := by
    simpa using ((hasDerivAt_id x).const_mul (-3)).sub_const (2 * t)
  have h2 := h1.exp.const_mul 6
  simp only [u_ref]
  convert h2 using 1
  ring

/-- The reference solution has second-slot derivative `-2 * u_ref x t`. -/
theorem u_ref_hasDerivAt_snd (x t : ℝ) :
    HasDerivAt (fun w => u_ref x w) (-2 * u_ref x t) t := by
  have h1 : HasDerivAt (fun w : ℝ => -3 * x - 2 * w) (-2) t := by
    simpa using HasDerivAt.const_sub (-3 * x) ((hasDerivAt_id t).const_mul 2)
  have h2 := h1.exp.const_mul 6
  simp only [u_ref]
  convert h2 using 1
  ring

/-- C2: with the reference oracle `u(x,t) = 6 exp(-3x-2t)` in place of the
network, the PDE residual evaluator returns exactly `0` at every interior
point of the domain `[0,2] × [0,1]`, and the boundary residual evaluator
returns exactly `0` at every boundary point (`t = 0`). -/
theorem u_ref_residuals_vanish {n m : ℕ} (xs ts : Fin n → ℝ) (rs : Fin m → ℝ)
    (i : Fin n) (k : Fin m)
    (hx0 : 0 ≤ xs i) (hx2 : xs i ≤ 2) (ht0 : 0 ≤ ts i) (ht1 : ts i ≤ 1) :
    pde_error u_ref xs ts i = 0 ∧ boundary_error u_ref rs k = 0 := by
  constructor
  · unfold pde_error gradBatchFst gradBatchSnd
    rw [deriv_sum_update (fun j v => u_ref v (ts j)) xs i,
      deriv_sum_update (fun j v => u_ref (xs j) v) ts i]
    rw [(u_ref_hasDerivAt_fst (xs i) (ts i)).deriv,
      (u_ref_hasDerivAt_snd (xs i) (ts i)).deriv]
    ring
  · show u_ref (boundary_x (rs k)) 0 - 6 * Real.exp (-3 * boundary_x (rs k)) = 0
    unfold u_ref
    norm_num

/-- Witness for C2 at the concrete interior point `(1, 1/2)` and the boundary
draw `1/3`. -/
theorem u_ref_residuals_vanish_witness :
    ((0:ℝ) ≤ 1 ∧ (1:ℝ) ≤ 2 ∧ (0:ℝ) ≤ 1/2 ∧ (1:ℝ)/2 ≤ 1) ∧
      (pde_error u_ref (fun _ : Fin 1 => 1) (fun _ => 1/2) 0 = 0 ∧
        boundary_error u_ref (fun _ : Fin 1 => 1/3) 0 = 0) :=
  ⟨⟨by norm_num, by norm_num, by norm_num, by norm_num⟩,
    u_ref_residuals_vanish (fun _ : Fin 1 => 1) (fun _ => 1/2) (fun _ : Fin 1 => 1/3) 0 0
      (by norm_num) (by norm_num) (by norm_num) (by norm_num)⟩

/-- C3: every sample point produced by the interior sampler lies inside the
domain rectangle, for any bounds with lower bound below upper bound and any
uniform draws in `[0, 1)`. -/
theorem getitem_in_domain (ds : RandomBoundedDataset) (index : ℕ) (r1 r2 : ℝ)
    (hbx : ds.boundx.1 < ds.boundx.2) (hbt : ds.boundt.1 < ds.boundt.2)
    (h1 : 0 ≤ r1) (h1' : r1 < 1) (h2 : 0 ≤ r2) (h2' : r2 < 1) :
    (ds.getitem index r1 r2).1 ∈ Set.Icc ds.boundx.1 ds.boundx.2 ∧
      (ds.getitem index r1 r2).2.1 ∈ Set.Icc ds.boundt.1 ds.boundt.2 := by
  unfold RandomBoundedDataset.getitem
  dsimp only
  refine ⟨Set.mem_Icc.mpr ⟨?_, ?_⟩, Set.mem_Icc.mpr ⟨?_, ?_⟩⟩ <;> nlinarith

/-- Witness for C3 on the notebook's domain `[0,2] × [0,1]` with draws
`(1/2, 1/3)` at index `7`. -/
theorem getitem_in_domain_witness :
    ((0:ℝ) < 2 ∧ (0:ℝ) < 1 ∧ (0:ℝ) ≤ 1/2 ∧ (1:ℝ)/2 < 1 ∧ (0:ℝ) ≤ 1/3 ∧ (1:ℝ)/3 < 1) ∧
      ((RandomBoundedDataset.mk 1024 (0, 2) (0, 1)).getitem 7 (1/2) (1/3)).1
          ∈ Set.Icc (0:ℝ) 2 ∧
        ((RandomBoundedDataset.mk 1024 (0, 2) (0, 1)).getitem 7 (1/2) (1/3)).2.1
          ∈ Set.Icc (0:ℝ) 1 :=
  ⟨⟨by norm_num, by norm_num, by norm_num, by norm_num, by norm_num, by norm_num⟩,
    getitem_in_domain (RandomBoundedDataset.mk 1024 (0, 2) (0, 1)) 7 (1/2) (1/3)
      (by norm_num) (by norm_num) (by norm_num) (by norm_num) (by norm_num) (by norm_num)⟩

/-- C9: the interior sampler's item lookup does not depend on the index: from
the same random-source state, any two in-range indices yield identical
results. -/
theorem getitem_index_independent (ds : RandomBoundedDataset) (i j : ℕ) (r1 r2 : ℝ)
    (hi : i < ds.n) (hj : j < ds.n) :
    ds.getitem i r1 r2 = ds.getitem j r1 r2 := rfl

/-- Witness for C9 with indices `3` and `900` in a dataset of declared
length `1024`. -/
theorem getitem_index_independent_witness :
    (3 < 1024 ∧ 900 < 1024) ∧
      (RandomBoundedDataset.mk 1024 (0, 2) (0, 1)).getitem 3 (1/2) (1/3)
        = (RandomBoundedDataset.mk 1024 (0, 2) (0, 1)).getitem 900 (1/2) (1/3) :=
  ⟨⟨by norm_num, by norm_num⟩,
    getitem_index_independent (RandomBoundedDataset.mk 1024 (0, 2) (0, 1)) 3 900 (1/2) (1/3)
      (by norm_num) (by norm_num)⟩

/-- C10: interior sample coordinates never attain the upper bounds — the
uniform source lies in the half-open `[0, 1)`, so each coordinate is at least
its lower bound and strictly below its upper bound, and the boundary abscissa
`rb * 2` is strictly below `2`. -/
theorem samples_strictly_below_upper (ds : RandomBoundedDataset) (index : ℕ)
    (r1 r2 rb : ℝ)
    (hbx : ds.boundx.1 < ds.boundx.2) (hbt : ds.boundt.1 < ds.boundt.2)
    (h1 : 0 ≤ r1) (h1' : r1 < 1) (h2 : 0 ≤ r2) (h2' : r2 < 1)
    (hb : 0 ≤ rb) (hb' : rb < 1) :
    (ds.boundx.1 ≤ (ds.getitem index r1 r2).1 ∧ (ds.getitem index r1 r2).1 < ds.boundx.2) ∧
      (ds.boundt.1 ≤ (ds.getitem index r1 r2).2.1 ∧
        (ds.getitem index r1 r2).2.1 < ds.boundt.2) ∧
      boundary_x rb < 2 := by
  unfold RandomBoundedDataset.getitem boundary_x
  dsimp only
  refine ⟨⟨?_, ?_⟩, ⟨?_, ?_⟩, ?_⟩ <;> nlinarith

/-- Witness for C10 on the notebook's domain with draws `(1/2, 1/3)` and
boundary draw `3/4`. -/
theorem samples_strictly_below_upper_witness :
    ((0:ℝ) < 2 ∧ (0:ℝ) < 1 ∧ (0:ℝ) ≤ 1/2 ∧ (1:ℝ)/2 < 1 ∧ (0:ℝ) ≤ 1/3 ∧ (1:ℝ)/3 < 1 ∧
        (0:ℝ) ≤ 3/4 ∧ (3:ℝ)/4 < 1) ∧
      (((0:ℝ) ≤ ((RandomBoundedDataset.mk 1024 (0, 2) (0, 1)).getitem 7 (1/2) (1/3)).1 ∧
          ((RandomBoundedDataset.mk 1024 (0, 2) (0, 1)).getitem 7 (1/2) (1/3)).1 < 2) ∧
        ((0:ℝ) ≤ ((RandomBoundedDataset.mk 1024 (0, 2) (0, 1)).getitem 7 (1/2) (1/3)).2.1 ∧
          ((RandomBoundedDataset.mk 1024 (0, 2) (0, 1)).getitem 7 (1/2) (1/3)).2.1 < 1) ∧
        boundary_x (3/4) < 2) :=
  ⟨⟨by norm_num, by norm_num, by norm_num, by norm_num, by norm_num, by norm_num,
      by norm_num, by norm_num⟩,
    samples_strictly_below_upper (RandomBoundedDataset.mk 1024 (0, 2) (0, 1)) 7
      (1/2) (1/3) (3/4) (by norm_num) (by norm_num) (by norm_num) (by norm_num)
      (by norm_num) (by norm_num) (by norm_num) (by norm_num)⟩

/-- C8 counterexample: constructing the sampler with invalid x-bounds
(lower bound `2 ≥ 0` upper bound) does not raise — the constructor returns
normally, refuting "raises a ConfigurationError at construction time". -/
theorem init_invalid_bounds_counterexample :
    ((2:ℝ) ≥ 0) ∧
      RandomBoundedDataset.init 1024 (2, 0) (0, 1)
        ≠ Except.error ConfigurationError.invalidBounds :=
  ⟨by norm_num, fun h => Except.noConfusion h⟩

/-- C8 amended: construction performs no bounds validation — for every size
and every pair of bound intervals, valid or inverted, the constructor
returns normally and never raises. -/
theorem init_never_raises (n : ℕ) (boundx boundt : ℝ × ℝ) :
    RandomBoundedDataset.init n boundx boundt = Except.ok ⟨n, boundx, boundt⟩ := rfl

/-- C4: every boundary sample has ordinate exactly `0` (the domain's
t-lower-bound), target exactly `6 * exp(-3 * abscissa)`, and the abscissa is
uniform over the domain's x-interval `[0, 2]`: for any subinterval
`[a, b) ⊆ [0, 2]`, the uniform `[0, 1)` draws landing in it form a set of
measure `(b - a) / 2`, the subinterval's length over the interval's length. -/
theorem boundary_sample_spec (r a b : ℝ) (h0 : 0 ≤ a) (hab : a ≤ b) (hb2 : b ≤ 2) :
    (boundary_sample r).2.1 = 0 ∧
      (boundary_sample r).2.2 = 6 * Real.exp (-3 * (boundary_sample r).1) ∧
      MeasureTheory.volume {s ∈ Set.Ico (0:ℝ) 1 | a ≤ boundary_x s ∧ boundary_x s < b}
        = ENNReal.ofReal ((b - a) / 2) := by
  refine ⟨rfl, rfl, ?_⟩
  have hset : {s ∈ Set.Ico (0:ℝ) 1 | a ≤ boundary_x s ∧ boundary_x s < b}
      = Set.Ico (a / 2) (b / 2) := by
    ext s
    simp only [Set.mem_sep_iff, Set.mem_Ico, boundary_x]
    constructor
    · rintro ⟨⟨hs0, hs1⟩, hsa, hsb⟩
      constructor <;> linarith
    · rintro ⟨hsa, hsb⟩
      refine ⟨⟨?_, ?_⟩, ?_, ?_⟩ <;> linarith
  rw [hset, Real.volume_Ico]
  congr 1
  ring

/-- Witness for C4 with draw `1/4` and subinterval `[1/2, 3/2)`. -/
theorem boundary_sample_spec_witness :
    ((0:ℝ) ≤ 1/2 ∧ (1:ℝ)/2 ≤ 3/2 ∧ (3:ℝ)/2 ≤ 2) ∧
      ((boundary_sample (1/4)).2.1 = 0 ∧
        (boundary_sample (1/4)).2.2 = 6 * Real.exp (-3 * (boundary_sample (1/4)).1) ∧
        MeasureTheory.volume {s ∈ Set.Ico (0:ℝ) 1 | 1/2 ≤ boundary_x s ∧ boundary_x s < 3/2}
          = ENNReal.ofReal ((3/2 - 1/2) / 2)) :=
  ⟨⟨by norm_num, by norm_num, by norm_num⟩,
    boundary_sample_spec (1/4) (1/2) (3/2) (by norm_num) (by norm_num) (by norm_num)⟩

/-- C5: at every training step, the total loss equals the mean of the squared
PDE residuals over the interior batch plus the mean of the squared boundary
residuals over the boundary batch — each an MSE against the all-zero target
delivered by the dataset — and this total loss is non-negative. -/
theorem training_step_loss_spec {n : ℕ} (u : ℝ → ℝ → ℝ) (xs ts ys rs : Fin n → ℝ)
    (hy : ys = fun _ => 0) :
    (training_step u xs ts ys rs).2.2
        = (∑ i, pde_error u xs ts i ^ 2) / n + (∑ i, boundary_error u rs i ^ 2) / n ∧
      0 ≤ (training_step u xs ts ys rs).2.2 := by
  subst hy
  have h1 : (training_step u xs ts (fun _ => 0) rs).2.2
      = (∑ i, pde_error u xs ts i ^ 2) / n + (∑ i, boundary_error u rs i ^ 2) / n := by
    unfold training_step mseLoss
    dsimp only
    simp
  refine ⟨h1, ?_⟩
  rw [h1]
  have hp : 0 ≤ (∑ i, pde_error u xs ts i ^ 2) / (n:ℝ) :=
    div_nonneg (Finset.sum_nonneg fun i _ => sq_nonneg _) (Nat.cast_nonneg n)
  have hb : 0 ≤ (∑ i, boundary_error u rs i ^ 2) / (n:ℝ) :=
    div_nonneg (Finset.sum_nonneg fun i _ => sq_nonneg _) (Nat.cast_nonneg n)
  linarith

/-- Witness for C5 with a singleton batch, the zero network, and zero
draws. -/
theorem training_step_loss_spec_witness :
    ((fun _ : Fin 1 => (0:ℝ)) = fun _ => 0) ∧
      ((training_step (fun _ _ => 0) (fun _ => 0) (fun _ => 0) (fun _ : Fin 1 => 0)
            (fun _ => 0)).2.2
          = (∑ i, pde_error (fun _ _ => 0) (fun _ : Fin 1 => 0) (fun _ => 0) i ^ 2) / ((1:ℕ):ℝ)
            + (∑ i, boundary_error (fun _ _ => (0:ℝ)) (fun _ : Fin 1 => 0) i ^ 2) / ((1:ℕ):ℝ) ∧
        0 ≤ (training_step (fun _ _ => 0) (fun _ => 0) (fun _ => 0) (fun _ : Fin 1 => 0)
            (fun _ => 0)).2.2) :=
  ⟨rfl,
    training_step_loss_spec (fun _ _ => 0) (fun _ => 0) (fun _ => 0) (fun _ : Fin 1 => 0)
      (fun _ => 0) rfl⟩

/-- The notebook's hidden-layer loop computes exactly the spec's hidden
stage. -/
theorem foldl_eq_specHiddenStage {m : ℕ} (ls : List (Linear m m)) (v : Fin m → ℝ) :
    ls.foldl (fun w l => tanhVec (l.apply w)) v = specHiddenStage ls v := by
  induction ls generalizing v with
  | nil => rfl
  | cons l ls ih => exact ih (tanhVec (l.apply v))

/-- C6: the approximator's forward pass concatenates the two input
coordinates into one vector per sample, applies the input affine transform
followed by the saturating nonlinearity, then the `n_hidden_layers - 1`
hidden affine transforms each followed by the nonlinearity, then the final
affine transform to the scalar output with no nonlinearity on the output
layer: a net built from the configuration has exactly `n_hidden_layers - 1`
hidden layers, and its forward pass equals the spec-side composition. -/
theorem forward_structure {m : ℕ} (n_hidden_layers : ℕ) (lin : Linear 2 m)
    (hl : ℕ → Linear m m) (lout : Linear m 1) (x t : ℝ) :
    (FCNet.build 2 1 m n_hidden_layers lin hl lout).hidden_layers.length
        = n_hidden_layers - 1 ∧
      PINNNet.forward (FCNet.build 2 1 m n_hidden_layers lin hl lout) x t
        = specForward (FCNet.build 2 1 m n_hidden_layers lin hl lout) x t := by
  constructor
  · simp [FCNet.build]
  · unfold PINNNet.forward specForward FCNet.forward
    rw [foldl_eq_specHiddenStage]

/-- C7: parameter initialization is deterministic in the random source — two
nets each produced by a call of the initializer with the same configuration
`(depth, width, dimensions)` and the same random source agree on every
weight matrix entry and every bias vector entry. -/
theorem init_xavier_deterministic (rand : ℕ → ℝ) (n_hidden_layers neurons : ℕ)
    (net1 net2 : FCNet 2 1 neurons)
    (hcall1 : net1 = init_xavier rand n_hidden_layers neurons)
    (hcall2 : net2 = init_xavier rand n_hidden_layers neurons) :
    (∀ r c, net1.input_layer.weight r c = net2.input_layer.weight r c) ∧
      (∀ r, net1.input_layer.bias r = net2.input_layer.bias r) ∧
      net1.hidden_layers = net2.hidden_layers ∧
      (∀ r c, net1.output_layer.weight r c = net2.output_layer.weight r c) ∧
      (∀ r, net1.output_layer.bias r = net2.output_layer.bias r) := by
  subst hcall1
  subst hcall2
  exact ⟨fun r c => rfl, fun r => rfl, rfl, fun r c => rfl, fun r => rfl⟩

/-- Witness for C7: two calls with the constant-`1/2` draw stream, depth `3`
and width `4`. -/
theorem init_xavier_deterministic_witness :
    (init_xavier (fun _ => 1/2) 3 4 = init_xavier (fun _ => 1/2) 3 4 ∧
        init_xavier (fun _ => 1/2) 3 4 = init_xavier (fun _ => 1/2) 3 4) ∧
      ((∀ r c, (init_xavier (fun _ => 1/2) 3 4).input_layer.weight r c
            = (init_xavier (fun _ => 1/2) 3 4).input_layer.weight r c) ∧
        (∀ r, (init_xavier (fun _ => 1/2) 3 4).input_layer.bias r
            = (init_xavier (fun _ => 1/2) 3 4).input_layer.bias r) ∧
        (init_xavier (fun _ => 1/2) 3 4).hidden_layers
            = (init_xavier (fun _ => 1/2) 3 4).hidden_layers ∧
        (∀ r c, (init_xavier (fun _ => 1/2) 3 4).output_layer.weight r c
            = (init_xavier (fun _ => 1/2) 3 4).output_layer.weight r c) ∧
        (∀ r, (init_xavier (fun _ => 1/2) 3 4).output_layer.bias r
            = (init_xavier (fun _ => 1/2) 3 4).output_layer.bias r)) :=
  ⟨⟨rfl, rfl⟩,
    init_xavier_deterministic (fun _ => 1/2) 3 4 (init_xavier (fun _ => 1/2) 3 4)
      (init_xavier (fun _ => 1/2) 3 4) rfl rfl⟩

end

end PINNDemo
